import Mathlib

/-!
Verification of the pre-process-pipeline repository.

The repository has two pure conversion routines:

* the Annotation Producer (`create_lmv3_dataset` in `pre-process-pipeline.py`):
  for one page image and its OCR detections, it normalizes each detection's
  polygon into percentage coordinates and emits a geometry record plus a
  transcription record sharing a correlation id, collected into a task;
* the Dataset Flattener (`convert_label_studio_to_hf` in `json_to_arrow.py`):
  for each exported task it zips the `transcription` and `label` sequences
  into parallel `tokens` / `bboxes` / `ner_tags` arrays, resolving label
  names through the `LABEL_TO_ID` vocabulary.

Embedding conventions: Python dict access `d["k"]` on a possibly-missing key
is modelled by `Option` fields read through `getKey` (a missing key is a
`KeyError`); list indexing is modelled by `listGet` (`IndexError` on
overflow); Python numbers are modelled by `ℚ` (every arithmetic operation
performed by the code — scaling by 100, subtraction, division — is exact on
the values the claims are about); Python exceptions are `Except String`;
the `uuid4`-generated correlation id is modelled by a per-task counter,
which is faithful to its one relevant property, freshness within one task.
-/

/-- KeyError-style access: reading a field that may be absent from a JSON
object. `none` models a missing key and raises, like Python `d[k]`. -/
def getKey {α : Type} (o : Option α) (k : String) : Except String α :=
  match o with
  | some v => Except.ok v
  | none => Except.error ("KeyError: " ++ k)

/-- IndexError-style access: `xs[i]` on a Python list. -/
def listGet {α : Type} (xs : List α) (i : Nat) : Except String α :=
  match xs.get? i with
  | some v => Except.ok v
  | none => Except.error "IndexError: list index out of range"

/-! ## The Dataset Flattener (`src/json_to_arrow.py`) -/

/-- One entry of a task's `label` list in the corrected export:
`{x, y, width, height, labels:[str,...]}`.  Fields are `Option` because the
claims quantify over exports in which some of them may be missing. -/
structure LabelInfo where
  x : Option ℚ
  y : Option ℚ
  width : Option ℚ
  height : Option ℚ
  labels : Option (List String)
deriving Repr, DecidableEq

/-- One item of the document-level corrected export consumed by
`convert_label_studio_to_hf`: `{id, ocr, transcription, label}`. -/
structure LSItem where
  id : Nat
  ocr : String
  transcription : List String
  label : List LabelInfo
deriving Repr, DecidableEq

/-- The per-document flattened record `{id, image, tokens, bboxes, ner_tags}`. -/
structure FlattenedExample where
  id : Nat
  image : String
  tokens : List String
  bboxes : List (List ℚ)
  ner_tags : List Int
deriving Repr, DecidableEq

/-- The `LABEL_TO_ID` dictionary of `json_to_arrow.py`, lines 5-15. -/
def LABEL_TO_ID : List (String × Int) :=
  [("ano_calendario", 0),
   ("dependentes", 1),
   ("exercicio_e_ano", 2),
   ("nome_contribuinte", 3),
   ("protegida_por_sigilo", 4),
   ("rodape_pagina", 5),
   ("texto_ignorado", 6),
   ("tipo_declaracao", 7),
   ("valor_total_bens", 8)]

/-- `LABEL_TO_ID.get(label_name, -1)` (line 66): dictionary lookup with the
sentinel default `-1` for unmapped label names. -/
def labelToId (name : String) : Int :=
  (LABEL_TO_ID.lookup name).getD (-1)

/-- The body of the `for label_info, token_text in zip(item["label"], tokens)`
loop (lines 51-67): for every pair, read the four box fields and the first
entry of `labels`, accumulating `bboxes` and `ner_tags`.  A missing field
raises `KeyError`; an empty `labels` list raises `IndexError`. -/
def processLabelPairs :
    List (LabelInfo × String) → Except String (List (List ℚ) × List Int)
  | [] => Except.ok ([], [])
  | (labelInfo, _tokenText) :: rest => do
    let x ← getKey labelInfo.x "x"
    let y ← getKey labelInfo.y "y"
    let w ← getKey labelInfo.width "width"
    let h ← getKey labelInfo.height "height"
    let names ← getKey labelInfo.labels "labels"
    let labelName ← listGet names 0
    let (bs, ts) ← processLabelPairs rest
    Except.ok ([x, y, w, h] :: bs, labelToId labelName :: ts)

/-- One iteration of the outer `for item in data` loop (lines 33-75): the
tokens are the item's full `transcription` list (line 42), while `bboxes`
and `ner_tags` come from the zipped pairs. -/
def flattenItem (item : LSItem) : Except String FlattenedExample :=
  (processLabelPairs (item.label.zip item.transcription)).map fun p =>
    { id := item.id
      image := item.ocr
      tokens := item.transcription
      bboxes := p.1
      ner_tags := p.2 }

/-- The five parallel columns accumulated by `convert_label_studio_to_hf`
and handed to `Dataset.from_dict` (lines 78-84). -/
structure HFColumns where
  ids : List Nat
  images : List String
  tokens : List (List String)
  bboxes : List (List (List ℚ))
  ner_tags : List (List Int)
deriving Repr, DecidableEq

/-- `convert_label_studio_to_hf` (lines 17-87) over an already-decoded
export: flatten every item, accumulating the five columns. -/
def convert_label_studio_to_hf : List LSItem → Except String HFColumns
  | [] => Except.ok ⟨[], [], [], [], []⟩
  | item :: rest => do
    let ex ← flattenItem item
    let cols ← convert_label_studio_to_hf rest
    Except.ok ⟨ex.id :: cols.ids, ex.image :: cols.images,
      ex.tokens :: cols.tokens, ex.bboxes :: cols.bboxes,
      ex.ner_tags :: cols.ner_tags⟩

/-- A label entry has all the fields the loop body reads: the four box
fields and a nonempty `labels` list. -/
def LabelInfo.complete (li : LabelInfo) : Prop :=
  li.x.isSome ∧ li.y.isSome ∧ li.width.isSome ∧ li.height.isSome ∧
    li.labels.isSome ∧ li.labels.getD [] ≠ []

instance (li : LabelInfo) : Decidable li.complete := by
  unfold LabelInfo.complete; infer_instance

/-! ## The Annotation Producer (`src/pre-process-pipeline.py`) -/

/-- One OCR detection as iterated by `create_lmv3_dataset` (lines 151-153):
`item[0]` is the polygon (a list of pixel-space points) and `item[1][0]`
the recognized text. -/
structure Detection where
  coords : List (ℚ × ℚ)
  text : String
deriving Repr, DecidableEq

/-- The `bbox` dictionary of lines 165-171: percentage coordinates plus the
fixed `rotation: 0`. -/
structure NormalizedBox where
  x : ℚ
  y : ℚ
  width : ℚ
  height : ℚ
  rotation : ℚ
deriving Repr, DecidableEq

/-- One entry of `predictions[0].result`: covers both the `bbox_result`
(lines 177-183, `text = none`, `score = none`) and the
`transcription_result` (lines 185-192, which repeats the box fields inside
its `value` next to `text` and carries `score: 0.5`). -/
structure AnnotationRecord where
  id : Nat
  from_name : String
  to_name : String
  type : String
  text : Option (List String)
  value : NormalizedBox
  score : Option ℚ
deriving Repr, DecidableEq

/-- The task envelope built per image (lines 134-201): the image URL under
`data.ocr` and `predictions = [{result, score: 0.97}]`. -/
structure LSTask where
  ocr : String
  result : List AnnotationRecord
  score : ℚ
deriving Repr, DecidableEq

/-- Python division: `ZeroDivisionError` on a zero divisor, exact division
otherwise. -/
def pydiv (a b : ℚ) : Except String ℚ :=
  if b = 0 then Except.error "ZeroDivisionError: division by zero"
  else Except.ok (a / b)

/-- Lines 160-171: read the polygon's corner 0 (top-left) and corner 2
(bottom-right), form `(x, y, width, height)` in pixels, and scale each by
`100 / image dimension`.  The divisions are exactly the four performed when
building the `bbox` dict; no check precedes them, so a zero image dimension
surfaces as a division error and a short polygon as an index error. -/
def normalizeBox (image_width image_height : Nat) (coords : List (ℚ × ℚ)) :
    Except String NormalizedBox := do
  let c0 ← listGet coords 0
  let c2 ← listGet coords 2
  let x := c0.1
  let y := c0.2
  let width := c2.1 - c0.1
  let height := c2.2 - c0.2
  let bx ← pydiv (100 * x) (image_width : ℚ)
  let bY ← pydiv (100 * y) (image_height : ℚ)
  let bw ← pydiv (100 * width) (image_width : ℚ)
  let bh ← pydiv (100 * height) (image_height : ℚ)
  Except.ok ⟨bx, bY, bw, bh, 0⟩

/-- The `bbox_result` record (lines 177-183). -/
def mkBboxResult (region_id : Nat) (b : NormalizedBox) : AnnotationRecord :=
  ⟨region_id, "bbox", "image", "rectangle", none, b, none⟩

/-- The `transcription_result` record (lines 185-192): `value` holds
`text=[text]` together with the same box fields, `score = 0.5`. -/
def mkTranscriptionResult (region_id : Nat) (b : NormalizedBox)
    (text : String) : AnnotationRecord :=
  ⟨region_id, "transcription", "image", "textarea", some [text], b,
    some (1 / 2)⟩

/-- One iteration of the inner detection loop (lines 151-195): `if not
text: continue` drops exactly the empty string (line 156), otherwise the
box is normalized, a fresh `region_id` is drawn (line 174, modelled by the
counter), and the record pair is built. -/
def processDetection (image_width image_height region_id : Nat)
    (d : Detection) : Except String (Option (AnnotationRecord × AnnotationRecord)) :=
  if d.text = "" then Except.ok none
  else
    (normalizeBox image_width image_height d.coords).map fun b =>
      some (mkBboxResult region_id b, mkTranscriptionResult region_id b d.text)

/-- The detection loop (lines 147-195) accumulating `annotation_result`:
each kept detection appends its geometry record immediately followed by its
transcription record, in detection encounter order. -/
def processImage (image_width image_height region_id : Nat) :
    List Detection → Except String (List AnnotationRecord)
  | [] => Except.ok []
  | d :: rest => do
    match ← processDetection image_width image_height region_id d with
    | none => processImage image_width image_height region_id rest
    | some (br, tr) => do
      let rs ← processImage image_width image_height (region_id + 1) rest
      Except.ok (br :: tr :: rs)

/-- The per-image body of `create_lmv3_dataset` (lines 134-201): one task
with the image URL, `predictions[0].result` from the detection loop and the
fixed task score `0.97`. -/
def create_lmv3_task (url : String) (image_width image_height : Nat)
    (dets : List Detection) : Except String LSTask :=
  (processImage image_width image_height 0 dets).map fun rs =>
    ⟨url, rs, 97 / 100⟩

/-! ## Basic lemmas about the embedding monad -/

theorem exceptOkBind {α β : Type} (w : α) (f : α → Except String β) :
    (Except.ok w >>= f) = f w := rfl

theorem exceptErrorBind {α β : Type} (e : String) (f : α → Except String β) :
    ((Except.error e : Except String α) >>= f) = Except.error e := rfl

theorem bindOk {α β : Type} {a : Except String α} {f : α → Except String β}
    {v : β} (h : (a >>= f) = Except.ok v) :
    ∃ w, a = Except.ok w ∧ f w = Except.ok v := by
  cases a with
  | error e => rw [exceptErrorBind] at h; exact absurd h (by simp)
  | ok w => exact ⟨w, rfl, h⟩

theorem getKey_ok {α : Type} {o : Option α} {k : String} {v : α}
    (h : getKey o k = Except.ok v) : o = some v := by
  cases o with
  | none => simp [getKey] at h
  | some w => simpa [getKey] using h

theorem listGet_ok {α : Type} {xs : List α} {i : Nat} {v : α}
    (h : listGet xs i = Except.ok v) : xs.get? i = some v := by
  unfold listGet at h
  cases hg : xs.get? i with
  | none => rw [hg] at h; simp at h
  | some w => rw [hg] at h; simpa using h

/-! ## Characterization of the Flattener loop -/

/-- The loop of lines 51-67 succeeds exactly when every paired label entry
is complete, and then returns the verbatim box fields and the resolved id
of each entry's first label name. -/
theorem processLabelPairs_ok_iff :
    ∀ (ps : List (LabelInfo × String)) (bs : List (List ℚ)) (ts : List Int),
    processLabelPairs ps = Except.ok (bs, ts) ↔
      ((∀ p ∈ ps, p.1.complete) ∧
        bs = ps.map (fun p =>
          [p.1.x.getD 0, p.1.y.getD 0, p.1.width.getD 0, p.1.height.getD 0]) ∧
        ts = ps.map fun p => labelToId ((p.1.labels.getD []).headD "")) := by
  intro ps
  induction ps with
  | nil =>
    intro bs ts
    simp [processLabelPairs, eq_comm]
  | cons p rest ih =>
    obtain ⟨li, tok⟩ := p
    intro bs ts
    constructor
    · intro h
      simp only [processLabelPairs] at h
      obtain ⟨xv, hx, h⟩ := bindOk h
      obtain ⟨yv, hy, h⟩ := bindOk h
      obtain ⟨wv, hw, h⟩ := bindOk h
      obtain ⟨hv, hh, h⟩ := bindOk h
      obtain ⟨names, hl, h⟩ := bindOk h
      obtain ⟨n, hn, h⟩ := bindOk h
      obtain ⟨⟨bs', ts'⟩, hrec, hfin⟩ := bindOk h
      replace hx := getKey_ok hx
      replace hy := getKey_ok hy
      replace hw := getKey_ok hw
      replace hh := getKey_ok hh
      replace hl := getKey_ok hl
      replace hn := listGet_ok hn
      obtain ⟨hc, hbs, hts⟩ := (ih bs' ts').mp hrec
      have hnames : ∃ ns, names = n :: ns := by
        cases names with
        | nil => simp at hn
        | cons a as => simp at hn; exact ⟨as, by rw [hn]⟩
      obtain ⟨ns, hns⟩ := hnames
      simp only [Except.ok.injEq, Prod.mk.injEq] at hfin
      refine ⟨?_, ?_, ?_⟩
      · intro q hq
        rcases List.mem_cons.mp hq with hq | hq
        · subst hq
          exact ⟨by simp [hx], by simp [hy], by simp [hw], by simp [hh],
            by simp [hl], by simp [hl, hns]⟩
        · exact hc q hq
      · rw [← hfin.1, hbs]
        simp [hx, hy, hw, hh]
      · rw [← hfin.2, hts]
        simp [hl, hns]
    · rintro ⟨hc, hbs, hts⟩
      have hli := hc (li, tok) (List.mem_cons_self _ _)
      obtain ⟨hx, hy, hw, hh, hl, hne⟩ := hli
      obtain ⟨xv, hx⟩ := Option.isSome_iff_exists.mp hx
      obtain ⟨yv, hy⟩ := Option.isSome_iff_exists.mp hy
      obtain ⟨wv, hw⟩ := Option.isSome_iff_exists.mp hw
      obtain ⟨hv, hh⟩ := Option.isSome_iff_exists.mp hh
      obtain ⟨ls, hl⟩ := Option.isSome_iff_exists.mp hl
      rw [hl] at hne
      simp only [Option.getD_some] at hne
      obtain ⟨n, ns, hns⟩ := List.exists_cons_of_ne_nil hne
      subst hns
      have hrest : processLabelPairs rest =
          Except.ok (rest.map (fun p =>
            [p.1.x.getD 0, p.1.y.getD 0, p.1.width.getD 0, p.1.height.getD 0]),
            rest.map fun p => labelToId ((p.1.labels.getD []).headD "")) :=
        (ih _ _).mpr ⟨fun q hq => hc q (List.mem_cons_of_mem _ hq), rfl, rfl⟩
      subst hbs hts
      have hx' : li.x = some xv := hx
      have hy' : li.y = some yv := hy
      have hw' : li.width = some wv := hw
      have hh' : li.height = some hv := hh
      have hl' : li.labels = some (n :: ns) := hl
      simp [processLabelPairs, getKey, listGet, hx', hy', hw', hh', hl', hrest,
        exceptOkBind]

/-- An error result exists as soon as success is impossible. -/
theorem mapOk {α β : Type} {a : Except String α} {g : α → β} {v : β}
    (h : Except.map g a = Except.ok v) : ∃ w, a = Except.ok w ∧ g w = v := by
  cases a with
  | error e => simp [Except.map] at h
  | ok w => exact ⟨w, rfl, by simpa [Except.map] using h⟩

theorem exceptMapError {α β : Type} (e : String) (g : α → β) :
    Except.map g (Except.error e : Except String α) = Except.error e := rfl

/-! ## Concrete exports used as witnesses -/

/-- A complete label entry carrying the class `nome_contribuinte`. -/
def liA : LabelInfo := ⟨some 1, some 2, some 3, some 4, some ["nome_contribuinte"]⟩

/-- A complete label entry carrying a class outside the vocabulary. -/
def liB : LabelInfo := ⟨some 5, some 6, some 7, some 8, some ["foo"]⟩

/-- A complete label entry carrying the class `rodape_pagina`. -/
def liC : LabelInfo := ⟨some 9, some 10, some 11, some 12, some ["rodape_pagina"]⟩

/-- A label entry whose `labels` key is missing entirely. -/
def liNoLabels : LabelInfo := ⟨some 1, some 2, some 3, some 4, none⟩

/-- An export item with five transcription tokens but only three label
entries. -/
def itemLong : LSItem :=
  ⟨1, "img.png", ["t1", "t2", "t3", "t4", "t5"], [liA, liB, liC]⟩

/-- An export item whose single label entry has no `labels` key. -/
def itemNoLabels : LSItem := ⟨2, "img.png", ["t1"], [liNoLabels]⟩

/-- The flattening of `itemLong`. -/
def exLong : FlattenedExample :=
  ⟨1, "img.png", ["t1", "t2", "t3", "t4", "t5"],
    [[1, 2, 3, 4], [5, 6, 7, 8], [9, 10, 11, 12]], [3, -1, 5]⟩

example : flattenItem itemLong = Except.ok exLong := rfl

/-! ## Claim C1 -/

/-- C1, counterexample: on an export with 5 transcription tokens and 3
label entries the Flattener succeeds with `tokens` of length 5, not
`min 5 3 = 3`: `len(tokens)` does not equal the common length of `bboxes`
and `label_ids`. -/
theorem flatten_tokens_length_not_min :
    ∃ ex, flattenItem itemLong = Except.ok ex ∧
      ex.tokens.length ≠
        min itemLong.transcription.length itemLong.label.length :=
  ⟨exLong, rfl, by decide⟩

/-- C1, amended: whenever the Flattener succeeds,
`len(bboxes) == len(label_ids) == min(len(transcription), len(label))`, but
`tokens` is the full input `transcription` list, so `len(tokens) ==
len(transcription)`, which exceeds the common length of the other two
arrays when the transcription list is the longer one. -/
theorem flatten_lengths (item : LSItem) (ex : FlattenedExample)
    (h : flattenItem item = Except.ok ex) :
    ex.bboxes.length = min item.transcription.length item.label.length ∧
    ex.ner_tags.length = min item.transcription.length item.label.length ∧
    ex.tokens.length = item.transcription.length := by
  obtain ⟨⟨bs, ts⟩, hp, hv⟩ := mapOk h
  obtain ⟨-, hbs, hts⟩ := (processLabelPairs_ok_iff _ _ _).mp hp
  subst hv
  refine ⟨?_, ?_, rfl⟩
  · simp [hbs, List.length_zip, Nat.min_comm]
  · simp [hts, List.length_zip, Nat.min_comm]

/-- C1 witness for `flatten_lengths` at `itemLong`. -/
theorem flatten_lengths_witness :
    exLong.bboxes.length = min itemLong.transcription.length
      itemLong.label.length ∧
    exLong.ner_tags.length = min itemLong.transcription.length
      itemLong.label.length ∧
    exLong.tokens.length = itemLong.transcription.length :=
  flatten_lengths itemLong exLong rfl

/-! ## Claim C2 -/

/-- C2: the Flattener pairs `label` and `transcription` positionally up to
the shorter length (trailing entries discarded), copies each paired label
entry's `(x, y, width, height)` verbatim into the i-th output bbox, and
resolves the i-th label id from the first entry of the entry's `labels`
list. -/
theorem flatten_positional_pairing (item : LSItem) (ex : FlattenedExample)
    (h : flattenItem item = Except.ok ex) :
    ex.bboxes.length = min item.transcription.length item.label.length ∧
    ∀ i : Nat, ∀ li : LabelInfo, ∀ tok : String,
      (item.label.zip item.transcription).get? i = some (li, tok) →
      ∃ xv yv wv hv : ℚ, ∃ n : String, ∃ ns : List String,
        li.x = some xv ∧ li.y = some yv ∧ li.width = some wv ∧
        li.height = some hv ∧ li.labels = some (n :: ns) ∧
        ex.bboxes.get? i = some [xv, yv, wv, hv] ∧
        ex.ner_tags.get? i = some (labelToId n) := by
  obtain ⟨⟨bs, ts⟩, hp, hv⟩ := mapOk h
  obtain ⟨hc, hbs, hts⟩ := (processLabelPairs_ok_iff _ _ _).mp hp
  subst hv
  refine ⟨by simp [hbs, List.length_zip, Nat.min_comm], ?_⟩
  intro i li tok hi
  have hmem : (li, tok) ∈ item.label.zip item.transcription :=
    List.get?_mem hi
  obtain ⟨hx, hy, hw, hh, hl, hne⟩ := hc (li, tok) hmem
  obtain ⟨xv, hx⟩ := Option.isSome_iff_exists.mp hx
  obtain ⟨yv, hy⟩ := Option.isSome_iff_exists.mp hy
  obtain ⟨wv, hw⟩ := Option.isSome_iff_exists.mp hw
  obtain ⟨hgt, hh⟩ := Option.isSome_iff_exists.mp hh
  obtain ⟨ls, hl⟩ := Option.isSome_iff_exists.mp hl
  rw [hl] at hne
  simp only [Option.getD_some] at hne
  obtain ⟨n, ns, hns⟩ := List.exists_cons_of_ne_nil hne
  subst hns
  have hx' : li.x = some xv := hx
  have hy' : li.y = some yv := hy
  have hw' : li.width = some wv := hw
  have hh' : li.height = some hgt := hh
  have hl' : li.labels = some (n :: ns) := hl
  have hi' : (item.label.zip item.transcription)[i]? = some (li, tok) := by
    simpa [← List.get?_eq_getElem?] using hi
  refine ⟨xv, yv, wv, hgt, n, ns, hx', hy', hw', hh', hl', ?_, ?_⟩
  · rw [hbs]
    simp [List.get?_eq_getElem?, List.getElem?_map, hi', hx', hy', hw', hh']
  · rw [hts]
    simp [List.get?_eq_getElem?, List.getElem?_map, hi', hl']

/-- C2 witness: `flatten_positional_pairing` at `itemLong`, read off at
index 1 (the out-of-vocabulary entry `liB`). -/
theorem flatten_positional_pairing_witness :
    exLong.bboxes.length = min itemLong.transcription.length
      itemLong.label.length ∧
    ∃ xv yv wv hv : ℚ, ∃ n : String, ∃ ns : List String,
      liB.x = some xv ∧ liB.y = some yv ∧ liB.width = some wv ∧
      liB.height = some hv ∧ liB.labels = some (n :: ns) ∧
      exLong.bboxes.get? 1 = some [xv, yv, wv, hv] ∧
      exLong.ner_tags.get? 1 = some (labelToId n) := by
  have h := flatten_positional_pairing itemLong exLong rfl
  exact ⟨h.1, h.2 1 liB "t2" rfl⟩

/-! ## Claim C6 -/

/-- C6: a paired label entry missing one of the required box fields, or
missing the `labels` list entirely, makes the Flattener fail on the whole
Task with a structural (KeyError) failure; it never returns a partial
FlattenedExample. -/
theorem flatten_missing_field_error (item : LSItem)
    (h : ∃ p ∈ item.label.zip item.transcription,
      p.1.x = none ∨ p.1.y = none ∨ p.1.width = none ∨ p.1.height = none ∨
        p.1.labels = none) :
    ∃ e, flattenItem item = Except.error e := by
  obtain ⟨p, hmem, hbad⟩ := h
  cases hres : processLabelPairs (item.label.zip item.transcription) with
  | error e => exact ⟨e, by simp [flattenItem, hres, exceptMapError]⟩
  | ok bt =>
    exfalso
    obtain ⟨bs, ts⟩ := bt
    obtain ⟨hc, -, -⟩ := (processLabelPairs_ok_iff _ _ _).mp hres
    obtain ⟨hx, hy, hw, hh, hl, -⟩ := hc p hmem
    rcases hbad with hb | hb | hb | hb | hb <;> simp_all

/-- C6 witness: `flatten_missing_field_error` at `itemNoLabels`, whose
single label entry lacks the `labels` key. -/
theorem flatten_missing_field_error_witness :
    ∃ e, flattenItem itemNoLabels = Except.error e :=
  flatten_missing_field_error itemNoLabels
    ⟨(liNoLabels, "t1"), by simp [itemNoLabels], Or.inr (Or.inr (Or.inr
      (Or.inr rfl)))⟩

/-! ## Claim C7 -/

/-- C7: label-name resolution is total: each of the nine vocabulary class
names maps to its fixed id in `0..8` (`nome_contribuinte` to `3`), and
every string outside the vocabulary maps to the sentinel `-1` without an
error. -/
theorem labelToId_total :
    (labelToId "ano_calendario" = 0 ∧ labelToId "dependentes" = 1 ∧
     labelToId "exercicio_e_ano" = 2 ∧ labelToId "nome_contribuinte" = 3 ∧
     labelToId "protegida_por_sigilo" = 4 ∧ labelToId "rodape_pagina" = 5 ∧
     labelToId "texto_ignorado" = 6 ∧ labelToId "tipo_declaracao" = 7 ∧
     labelToId "valor_total_bens" = 8) ∧
    ∀ s : String, s ∉ LABEL_TO_ID.map Prod.fst → labelToId s = -1 := by
  refine ⟨by decide, ?_⟩
  intro s hs
  simp only [LABEL_TO_ID, List.map_cons, List.map_nil, List.mem_cons,
    List.not_mem_nil, or_false, not_or] at hs
  obtain ⟨h1, h2, h3, h4, h5, h6, h7, h8, h9⟩ := hs
  have e1 : (s == "ano_calendario") = false := beq_eq_false_iff_ne.mpr h1
  have e2 : (s == "dependentes") = false := beq_eq_false_iff_ne.mpr h2
  have e3 : (s == "exercicio_e_ano") = false := beq_eq_false_iff_ne.mpr h3
  have e4 : (s == "nome_contribuinte") = false := beq_eq_false_iff_ne.mpr h4
  have e5 : (s == "protegida_por_sigilo") = false := beq_eq_false_iff_ne.mpr h5
  have e6 : (s == "rodape_pagina") = false := beq_eq_false_iff_ne.mpr h6
  have e7 : (s == "texto_ignorado") = false := beq_eq_false_iff_ne.mpr h7
  have e8 : (s == "tipo_declaracao") = false := beq_eq_false_iff_ne.mpr h8
  have e9 : (s == "valor_total_bens") = false := beq_eq_false_iff_ne.mpr h9
  simp [labelToId, LABEL_TO_ID, List.lookup, e1, e2, e3, e4, e5, e6, e7,
    e8, e9]

/-- C7 witness: `labelToId_total` read off at `nome_contribuinte` and at
the out-of-vocabulary name `foo`. -/
theorem labelToId_total_witness :
    labelToId "nome_contribuinte" = 3 ∧ labelToId "foo" = -1 :=
  ⟨labelToId_total.1.2.2.2.1, labelToId_total.2 "foo" (by decide)⟩

/-! ## Claim C10 -/

/-- C10: whenever the Flattener succeeds, the output `tokens` array is the
input `transcription` list, in full and unchanged, whatever the length of
the `label` list. -/
theorem flatten_tokens_full (item : LSItem) (ex : FlattenedExample)
    (h : flattenItem item = Except.ok ex) :
    ex.tokens = item.transcription := by
  obtain ⟨⟨bs, ts⟩, -, hv⟩ := mapOk h
  subst hv
  rfl

/-- C10 witness: `flatten_tokens_full` at `itemLong` (5 tokens, 3 labels). -/
theorem flatten_tokens_full_witness :
    exLong.tokens = itemLong.transcription :=
  flatten_tokens_full itemLong exLong rfl

/-! ## Concrete detections used as witnesses -/

/-- The round-trip detection of the spec: corners
`(10,10),(50,10),(50,30),(10,30)`, text `"ABC"`. -/
def detABC : Detection :=
  ⟨[(10, 10), (50, 10), (50, 30), (10, 30)], "ABC"⟩

/-- A detection whose recognized text is a single space. -/
def detSpace : Detection := ⟨[(0, 0), (10, 0), (10, 10), (0, 10)], " "⟩

/-- A detection with empty recognized text. -/
def detEmpty : Detection := ⟨[(0, 0), (10, 0), (10, 10), (0, 10)], ""⟩

deriving instance DecidableEq for Except

example : normalizeBox 100 200 detABC.coords =
    Except.ok ⟨10, 5, 40, 10, 0⟩ := by
  norm_num [normalizeBox, detABC, listGet, pydiv, exceptOkBind]

example : processImage 100 100 0 [detSpace] =
    Except.ok [mkBboxResult 0 ⟨0, 0, 10, 10, 0⟩,
      mkTranscriptionResult 0 ⟨0, 0, 10, 10, 0⟩ " "] := by
  norm_num [processImage, processDetection, normalizeBox, detSpace, listGet,
    pydiv, exceptOkBind, Except.map]
  rw [if_neg (by decide : ¬(" " = ""))]
  rfl

example : create_lmv3_task "u" 0 0 [] = Except.ok ⟨"u", [], 97 / 100⟩ := by
  norm_num [create_lmv3_task, processImage, Except.map]

/-! ## Claim C9 -/

/-- C9: for a 100×200 image and one detection with polygon corners
`(10,10),(50,10),(50,30),(10,30)` and text `"ABC"`, the Producer emits the
task whose two records carry NormalizedBox
`{x:10, y:5, width:40, height:10}`. -/
theorem produce_round_trip :
    create_lmv3_task "http://localhost:8080/doc/page_1.png" 100 200
        [detABC] =
      Except.ok ⟨"http://localhost:8080/doc/page_1.png",
        [mkBboxResult 0 ⟨10, 5, 40, 10, 0⟩,
         mkTranscriptionResult 0 ⟨10, 5, 40, 10, 0⟩ "ABC"], 97 / 100⟩ := by
  norm_num [create_lmv3_task, processImage, processDetection, normalizeBox,
    detABC, listGet, pydiv, exceptOkBind, Except.map]
  rw [if_neg (by decide : ¬("ABC" = ""))]
  rfl

/-! ## Claim C3 -/

/-- C3, counterexample: a detection whose text is the whitespace-only
string `" "` is NOT dropped — it contributes a full record pair, because
line 156 (`if not text`) only tests for the empty string. -/
theorem whitespace_detection_not_dropped :
    (detSpace.text.toList.all fun c => c = ' ') = true ∧
    detSpace.text ≠ "" ∧
    processImage 100 100 0 [detSpace] =
      Except.ok [mkBboxResult 0 ⟨0, 0, 10, 10, 0⟩,
        mkTranscriptionResult 0 ⟨0, 0, 10, 10, 0⟩ " "] := by
  refine ⟨by decide, by decide, ?_⟩
  norm_num [processImage, processDetection, normalizeBox, detSpace, listGet,
    pydiv, exceptOkBind, Except.map]
  rw [if_neg (by decide : ¬(" " = ""))]
  rfl

/-- Helper: a detection list whose texts are all empty makes the loop emit
no records. -/
theorem processImage_all_empty (W H : Nat) :
    ∀ (dets : List Detection) (i : Nat), (∀ d ∈ dets, d.text = "") →
      processImage W H i dets = Except.ok [] := by
  intro dets
  induction dets with
  | nil => intro i _; rfl
  | cons d rest ih =>
    intro i h
    have hd : d.text = "" := h d (List.mem_cons_self _ _)
    have hrest := ih i fun x hx => h x (List.mem_cons_of_mem _ hx)
    simp [processImage, processDetection, hd, exceptOkBind, hrest]

/-- C3, amended: a detection with EMPTY text is dropped and contributes
zero records, and a task built from an all-empty-text detection list has an
empty `predictions[0].result`; whitespace-only text, however, is kept. -/
theorem empty_text_dropped (url : String) (W H i : Nat) (d : Detection)
    (dets : List Detection) :
    (d.text = "" → processDetection W H i d = Except.ok none) ∧
    ((∀ x ∈ dets, x.text = "") →
      create_lmv3_task url W H dets = Except.ok ⟨url, [], 97 / 100⟩) := by
  constructor
  · intro h
    simp [processDetection, h]
  · intro h
    simp [create_lmv3_task, processImage_all_empty W H dets 0 h, Except.map]

/-- C3 witness: `empty_text_dropped` at `detEmpty` and the singleton list
`[detEmpty]`. -/
theorem empty_text_dropped_witness :
    processDetection 100 100 0 detEmpty = Except.ok none ∧
    create_lmv3_task "u" 100 100 [detEmpty] =
      Except.ok ⟨"u", [], 97 / 100⟩ :=
  ⟨(empty_text_dropped "u" 100 100 0 detEmpty [detEmpty]).1 rfl,
   (empty_text_dropped "u" 100 100 0 detEmpty [detEmpty]).2
     (by intro x hx; rw [List.mem_singleton] at hx; rw [hx]; rfl)⟩

/-! ## Claim C4 -/

/-- C4, counterexample: a zero-width, zero-height image whose detection
list is empty is processed without any error — the Producer raises nothing
for the image itself, because the divisions by the image dimensions only
happen while normalizing a kept detection. -/
theorem zero_size_image_not_always_error :
    create_lmv3_task "u" 0 0 [] = Except.ok ⟨"u", [], 97 / 100⟩ ∧
    ¬∃ e, create_lmv3_task "u" 0 0 [] = Except.error e := by
  have h : create_lmv3_task "u" 0 0 [] = Except.ok ⟨"u", [], 97 / 100⟩ := by
    norm_num [create_lmv3_task, processImage, Except.map]
  refine ⟨h, ?_⟩
  rintro ⟨e, he⟩
  rw [h] at he
  exact absurd he (by simp)

/-- Helper: normalizing a kept detection against a zero-width or
zero-height image fails, because one of the four divisions of lines
166-169 divides by the zero dimension. -/
theorem processDetection_zero_dim_error (W H i : Nat) (d : Detection)
    (hzero : W = 0 ∨ H = 0) (hne : d.text ≠ "")
    (hlen : 2 < d.coords.length) :
    ∃ e, processDetection W H i d = Except.error e := by
  cases hg0 : d.coords.get? 0 with
  | none =>
    rw [List.get?_eq_none] at hg0
    omega
  | some c0 =>
    cases hg2 : d.coords.get? 2 with
    | none =>
      rw [List.get?_eq_none] at hg2
      omega
    | some c2 =>
      have hg0' : d.coords[0]? = some c0 := by
        simpa [← List.get?_eq_getElem?] using hg0
      have hg2' : d.coords[2]? = some c2 := by
        simpa [← List.get?_eq_getElem?] using hg2
      by_cases hWq : (W : ℚ) = 0
      · refine ⟨"ZeroDivisionError: division by zero", ?_⟩
        simp [processDetection, if_neg hne, normalizeBox, listGet, hg0', hg2',
          exceptOkBind, pydiv, hWq, exceptErrorBind, Except.map]
      · have hHq : (H : ℚ) = 0 := by
          rcases hzero with hW | hH
          · exact absurd (by rw [hW]; norm_num) hWq
          · rw [hH]; norm_num
        refine ⟨"ZeroDivisionError: division by zero", ?_⟩
        simp [processDetection, if_neg hne, normalizeBox, listGet, hg0', hg2',
          exceptOkBind, pydiv, hWq, hHq, exceptErrorBind, Except.map]

/-- Helper: the detection loop fails on a zero-area image as soon as some
detection is kept. -/
theorem processImage_zero_dim_error (W H : Nat) (hzero : W = 0 ∨ H = 0) :
    ∀ (dets : List Detection) (i : Nat),
      (∀ d ∈ dets, 2 < d.coords.length) → (∃ d ∈ dets, d.text ≠ "") →
      ∃ e, processImage W H i dets = Except.error e := by
  intro dets
  induction dets with
  | nil =>
    rintro i - ⟨d, hd, -⟩
    simp at hd
  | cons d rest ih =>
    rintro i hcoords ⟨d0, hd0, hd0ne⟩
    by_cases hd : d.text = ""
    · have hmem : d0 ∈ rest := by
        rcases List.mem_cons.mp hd0 with h | h
        · subst h; exact absurd hd hd0ne
        · exact h
      obtain ⟨e, he⟩ := ih i (fun x hx => hcoords x (List.mem_cons_of_mem _ hx))
        ⟨d0, hmem, hd0ne⟩
      exact ⟨e, by simp [processImage, processDetection, hd, exceptOkBind, he]⟩
    · obtain ⟨e, he⟩ := processDetection_zero_dim_error W H i d hzero hd
        (hcoords d (List.mem_cons_self _ _))
      exact ⟨e, by simp [processImage, he, exceptErrorBind]⟩

/-- C4, amended: on an image of zero width or zero height the Producer
fails with the division's own ZeroDivisionError as soon as any detection
with nonempty text (and a well-formed 4-point polygon) is normalized;
there is no recovery path and no explicit pre-check, so an image whose
detections are all dropped raises nothing at all. -/
theorem zero_size_image_division_error (url : String) (W H : Nat)
    (dets : List Detection) (hzero : W = 0 ∨ H = 0)
    (hcoords : ∀ d ∈ dets, 2 < d.coords.length)
    (hkept : ∃ d ∈ dets, d.text ≠ "") :
    ∃ e, create_lmv3_task url W H dets = Except.error e := by
  obtain ⟨e, he⟩ := processImage_zero_dim_error W H hzero dets 0 hcoords hkept
  exact ⟨e, by simp [create_lmv3_task, he, exceptMapError]⟩

/-- A kept detection on the unit square with text `"A"`. -/
def detA : Detection := ⟨[(0, 0), (1, 0), (1, 1), (0, 1)], "A"⟩

/-- C4 witness: `zero_size_image_division_error` at a zero-width image
with the single kept detection `detA`. -/
theorem zero_size_image_division_error_witness :
    ∃ e, create_lmv3_task "u" 0 7 [detA] = Except.error e :=
  zero_size_image_division_error "u" 0 7 [detA] (Or.inl rfl)
    (by intro d hd; rw [List.mem_singleton] at hd; rw [hd]; decide)
    ⟨detA, List.mem_singleton.mpr rfl, by decide⟩

/-! ## Claim C5 -/

/-- A pixel-space point lying on the image of the given dimensions. -/
def inImage (W H : Nat) (p : ℚ × ℚ) : Prop :=
  0 ≤ p.1 ∧ p.1 ≤ W ∧ 0 ≤ p.2 ∧ p.2 ≤ H

/-- Well-ordered polygon corners in the sense of the claim: the four
detection corners, taken on the image, in top-left, top-right,
bottom-right, bottom-left order (left corners do not lie right of right
corners, top corners do not lie below bottom corners). -/
def wellOrderedQuad (W H : Nat) (tl tr br bl : ℚ × ℚ) : Prop :=
  inImage W H tl ∧ inImage W H tr ∧ inImage W H br ∧ inImage W H bl ∧
  tl.1 ≤ tr.1 ∧ tl.1 ≤ br.1 ∧ bl.1 ≤ tr.1 ∧ bl.1 ≤ br.1 ∧
  tl.2 ≤ bl.2 ∧ tl.2 ≤ br.2 ∧ tr.2 ≤ bl.2 ∧ tr.2 ≤ br.2

/-- C5: on an image of positive dimensions, a well-ordered polygon
normalizes to a box with `0 ≤ x, y ≤ 100` and `width, height ≥ 0`; and no
clamping is applied — the ill-ordered polygon
`(50,10),(10,10),(10,30),(50,30)` yields a negative width, which is
preserved. -/
theorem normalized_box_bounds (W H : Nat) (hW : 0 < W) (hH : 0 < H)
    (tl tr br bl : ℚ × ℚ) (hq : wellOrderedQuad W H tl tr br bl) :
    (∃ b, normalizeBox W H [tl, tr, br, bl] = Except.ok b ∧
      0 ≤ b.x ∧ b.x ≤ 100 ∧ 0 ≤ b.y ∧ b.y ≤ 100 ∧
      0 ≤ b.width ∧ 0 ≤ b.height) ∧
    (∃ b, normalizeBox 100 100 [(50, 10), (10, 10), (10, 30), (50, 30)] =
      Except.ok b ∧ b.width < 0) := by
  have hWq : (0 : ℚ) < W := by exact_mod_cast hW
  have hHq : (0 : ℚ) < H := by exact_mod_cast hH
  have hW0 : (W : ℚ) ≠ 0 := ne_of_gt hWq
  have hH0 : (H : ℚ) ≠ 0 := ne_of_gt hHq
  obtain ⟨⟨htlx0, htlxW, htly0, htlyH⟩, -, ⟨-, hbrxW, -, hbryH⟩, -,
    -, hxle, -, -, -, hyle, -, -⟩ := hq
  constructor
  · refine ⟨⟨100 * tl.1 / W, 100 * tl.2 / H, 100 * (br.1 - tl.1) / W,
      100 * (br.2 - tl.2) / H, 0⟩, ?_, ?_, ?_, ?_, ?_, ?_, ?_⟩
    · simp [normalizeBox, listGet, pydiv, hW0, hH0, exceptOkBind]
    · exact div_nonneg (by linarith) (le_of_lt hWq)
    · rw [div_le_iff₀ hWq]
      nlinarith
    · exact div_nonneg (by linarith) (le_of_lt hHq)
    · rw [div_le_iff₀ hHq]
      nlinarith
    · exact div_nonneg (by linarith) (le_of_lt hWq)
    · exact div_nonneg (by linarith) (le_of_lt hHq)
  · refine ⟨⟨50, 10, -40, 20, 0⟩, ?_, by norm_num⟩
    norm_num [normalizeBox, listGet, pydiv, exceptOkBind]

/-- C5 witness: `normalized_box_bounds` at the 100×200 image and the
well-ordered quad `(10,10),(50,10),(50,30),(10,30)`. -/
theorem normalized_box_bounds_witness :
    (∃ b, normalizeBox 100 200 [(10, 10), (50, 10), (50, 30), (10, 30)] =
      Except.ok b ∧ 0 ≤ b.x ∧ b.x ≤ 100 ∧ 0 ≤ b.y ∧ b.y ≤ 100 ∧
      0 ≤ b.width ∧ 0 ≤ b.height) ∧
    (∃ b, normalizeBox 100 100 [(50, 10), (10, 10), (10, 30), (50, 30)] =
      Except.ok b ∧ b.width < 0) :=
  normalized_box_bounds 100 200 (by norm_num) (by norm_num)
    (10, 10) (50, 10) (50, 30) (10, 30)
    (by norm_num [wellOrderedQuad, inImage])

/-! ## Claim C8 -/

/-- The list of records the loop appends for a sequence of kept detections
(normalized box & text), with consecutive correlation ids from `i`:
geometry record then transcription record per detection. -/
def mkRecords : Nat → List (NormalizedBox × String) → List AnnotationRecord
  | _, [] => []
  | i, (b, t) :: rest =>
    mkBboxResult i b :: mkTranscriptionResult i b t :: mkRecords (i + 1) rest

/-- Every successful run of the detection loop produces a record list of
the shape `mkRecords i ps` for some kept boxes and texts `ps`. -/
theorem processImage_shape (W H : Nat) :
    ∀ (dets : List Detection) (i : Nat) (rs : List AnnotationRecord),
      processImage W H i dets = Except.ok rs → ∃ ps, rs = mkRecords i ps := by
  intro dets
  induction dets with
  | nil =>
    intro i rs h
    refine ⟨[], ?_⟩
    simpa [processImage, eq_comm, mkRecords] using h
  | cons d rest ih =>
    intro i rs h
    simp only [processImage] at h
    obtain ⟨r, hr, h⟩ := bindOk h
    cases r with
    | none => exact ih i rs h
    | some pr =>
      obtain ⟨br, tr⟩ := pr
      obtain ⟨rs', hrs', hfin⟩ := bindOk h
      by_cases ht : d.text = ""
      · simp [processDetection, ht] at hr
      · simp only [processDetection, if_neg ht] at hr
        obtain ⟨b, -, hpair⟩ := mapOk hr
        simp only [Option.some.injEq, Prod.mk.injEq] at hpair
        obtain ⟨ps', hps'⟩ := ih (i + 1) rs' hrs'
        refine ⟨(b, d.text) :: ps', ?_⟩
        simp only [Except.ok.injEq] at hfin
        rw [← hfin, mkRecords, ← hpair.1, ← hpair.2, hps']

/-- Correlation ids in `mkRecords i ps` are at least `i`. -/
theorem mkRecords_id_ge :
    ∀ (ps : List (NormalizedBox × String)) (i : Nat) (r : AnnotationRecord),
      r ∈ mkRecords i ps → i ≤ r.id := by
  intro ps
  induction ps with
  | nil =>
    intro i r h
    simp [mkRecords] at h
  | cons p rest ih =>
    obtain ⟨b, t⟩ := p
    intro i r h
    simp only [mkRecords, List.mem_cons] at h
    rcases h with h | h | h
    · subst h; exact Nat.le_refl i
    · subst h; exact Nat.le_refl i
    · exact Nat.le_of_succ_le (ih (i + 1) r h)

/-- Every record of `mkRecords i ps` is a geometry or a transcription
record. -/
theorem mkRecords_kinds :
    ∀ (ps : List (NormalizedBox × String)) (i : Nat) (r : AnnotationRecord),
      r ∈ mkRecords i ps →
      r.from_name = "bbox" ∨ r.from_name = "transcription" := by
  intro ps
  induction ps with
  | nil =>
    intro i r h
    simp [mkRecords] at h
  | cons p rest ih =>
    obtain ⟨b, t⟩ := p
    intro i r h
    simp only [mkRecords, List.mem_cons] at h
    rcases h with h | h | h
    · exact Or.inl (by rw [h]; rfl)
    · exact Or.inr (by rw [h]; rfl)
    · exact ih (i + 1) r h

/-- A transcription record of `mkRecords i ps` has exactly one geometry
record with its correlation id. -/
theorem mkRecords_trans_unique_bbox :
    ∀ (ps : List (NormalizedBox × String)) (i : Nat) (r : AnnotationRecord),
      r ∈ mkRecords i ps → r.from_name = "transcription" →
      ((mkRecords i ps).countP
        fun r2 => r2.from_name == "bbox" && r2.id == r.id) = 1 := by
  intro ps
  induction ps with
  | nil =>
    intro i r h
    simp [mkRecords] at h
  | cons p rest ih =>
    obtain ⟨b, t⟩ := p
    intro i r hmem hname
    have hcount0 : ∀ q ∈ mkRecords (i + 1) rest, q.id ≠ i :=
      fun q hq => by have := mkRecords_id_ge rest (i + 1) q hq; omega
    simp only [mkRecords, List.mem_cons] at hmem
    simp only [mkRecords, List.countP_cons]
    rcases hmem with h | h | h
    · rw [h] at hname
      have hbt : ("bbox" : String) = "transcription" := hname
      exact absurd hbt (by decide)
    · subst h
      have hz : (mkRecords (i + 1) rest).countP
          (fun r2 => r2.from_name == "bbox" &&
            r2.id == (mkTranscriptionResult i b t).id) = 0 := by
        rw [List.countP_eq_zero]
        intro q hq
        have := hcount0 q hq
        simp [mkBboxResult, mkTranscriptionResult, this]
      rw [hz]
      simp [mkBboxResult, mkTranscriptionResult]
    · have hgt : i + 1 ≤ r.id := mkRecords_id_ge rest (i + 1) r h
      have h1 : ((mkBboxResult i b).from_name == "bbox" &&
          (mkBboxResult i b).id == r.id) = false := by
        simp [mkBboxResult]
        omega
      have h2 : ((mkTranscriptionResult i b t).from_name == "bbox" &&
          (mkTranscriptionResult i b t).id == r.id) = false := by
        simp [mkTranscriptionResult]
      rw [ih (i + 1) r h hname, h1, h2]
      simp

/-- A geometry record of `mkRecords i ps` has exactly one transcription
record with its correlation id. -/
theorem mkRecords_bbox_unique_trans :
    ∀ (ps : List (NormalizedBox × String)) (i : Nat) (r : AnnotationRecord),
      r ∈ mkRecords i ps → r.from_name = "bbox" →
      ((mkRecords i ps).countP
        fun r2 => r2.from_name == "transcription" && r2.id == r.id) = 1 := by
  intro ps
  induction ps with
  | nil =>
    intro i r h
    simp [mkRecords] at h
  | cons p rest ih =>
    obtain ⟨b, t⟩ := p
    intro i r hmem hname
    have hcount0 : ∀ q ∈ mkRecords (i + 1) rest, q.id ≠ i :=
      fun q hq => by have := mkRecords_id_ge rest (i + 1) q hq; omega
    simp only [mkRecords, List.mem_cons] at hmem
    simp only [mkRecords, List.countP_cons]
    rcases hmem with h | h | h
    · subst h
      have hz : (mkRecords (i + 1) rest).countP
          (fun r2 => r2.from_name == "transcription" &&
            r2.id == (mkBboxResult i b).id) = 0 := by
        rw [List.countP_eq_zero]
        intro q hq
        have := hcount0 q hq
        simp [mkBboxResult, this]
      rw [hz]
      simp [mkBboxResult, mkTranscriptionResult]
    · rw [h] at hname
      have htb : ("transcription" : String) = "bbox" := hname
      exact absurd htb (by decide)
    · have hgt : i + 1 ≤ r.id := mkRecords_id_ge rest (i + 1) r h
      have h1 : ((mkBboxResult i b).from_name == "transcription" &&
          (mkBboxResult i b).id == r.id) = false := by
        simp [mkBboxResult]
      have h2 : ((mkTranscriptionResult i b t).from_name == "transcription" &&
          (mkTranscriptionResult i b t).id == r.id) = false := by
        simp [mkTranscriptionResult]
        omega
      rw [ih (i + 1) r h hname, h1, h2]
      simp

/-- In `mkRecords i ps` a geometry record is immediately followed by its
transcription record, with the same correlation id and the same box. -/
theorem mkRecords_adjacent :
    ∀ (ps : List (NormalizedBox × String)) (i j : Nat)
      (r1 : AnnotationRecord),
      (mkRecords i ps).get? j = some r1 → r1.from_name = "bbox" →
      ∃ r2, (mkRecords i ps).get? (j + 1) = some r2 ∧
        r2.from_name = "transcription" ∧ r2.id = r1.id ∧
        r2.value = r1.value := by
  intro ps
  induction ps with
  | nil =>
    intro i j r1 h
    simp [mkRecords] at h
  | cons p rest ih =>
    obtain ⟨b, t⟩ := p
    intro i j r1 hget hname
    match j with
    | 0 =>
      simp only [mkRecords, List.get?] at hget
      obtain rfl : mkBboxResult i b = r1 := by
        injection hget
      exact ⟨mkTranscriptionResult i b t, rfl, rfl, rfl, rfl⟩
    | 1 =>
      simp only [mkRecords, List.get?] at hget
      obtain rfl : mkTranscriptionResult i b t = r1 := by
        injection hget
      have htb : ("transcription" : String) = "bbox" := hname
      exact absurd htb (by decide)
    | Nat.succ (Nat.succ k) =>
      have hget' : (mkRecords (i + 1) rest).get? k = some r1 := hget
      exact ih (i + 1) k r1 hget' hname

/-- C8: in every record list the Producer emits, the correlation ids give
a bijection between geometry and transcription records (each transcription
record has exactly one geometry record with its id and vice versa), every
record is one of the two kinds, records appear in detection encounter
order with each geometry record immediately preceding its transcription
record, and the two records of a pair carry the same NormalizedBox. -/
theorem produce_record_pairing (W H i : Nat) (dets : List Detection)
    (rs : List AnnotationRecord)
    (h : processImage W H i dets = Except.ok rs) :
    (∀ r ∈ rs, r.from_name = "bbox" ∨ r.from_name = "transcription") ∧
    (∀ r ∈ rs, r.from_name = "transcription" →
      (rs.countP fun r2 => r2.from_name == "bbox" && r2.id == r.id) = 1) ∧
    (∀ r ∈ rs, r.from_name = "bbox" →
      (rs.countP
        fun r2 => r2.from_name == "transcription" && r2.id == r.id) = 1) ∧
    (∀ (j : Nat) (r1 : AnnotationRecord), rs.get? j = some r1 →
      r1.from_name = "bbox" →
      ∃ r2, rs.get? (j + 1) = some r2 ∧ r2.from_name = "transcription" ∧
        r2.id = r1.id ∧ r2.value = r1.value) := by
  obtain ⟨ps, rfl⟩ := processImage_shape W H dets i rs h
  exact ⟨fun r hr => mkRecords_kinds ps i r hr,
    fun r hr hn => mkRecords_trans_unique_bbox ps i r hr hn,
    fun r hr hn => mkRecords_bbox_unique_trans ps i r hr hn,
    fun j r1 hg hn => mkRecords_adjacent ps i j r1 hg hn⟩

/-- The two records the Producer emits for `detABC` on a 100×200 image. -/
def recordsABC : List AnnotationRecord :=
  [mkBboxResult 0 ⟨10, 5, 40, 10, 0⟩,
   mkTranscriptionResult 0 ⟨10, 5, 40, 10, 0⟩ "ABC"]

/-- C8 witness: `produce_record_pairing` on the concrete run over
`[detABC]`. -/
theorem produce_record_pairing_witness :
    (∀ r ∈ recordsABC,
      r.from_name = "bbox" ∨ r.from_name = "transcription") ∧
    (∀ r ∈ recordsABC, r.from_name = "transcription" →
      (recordsABC.countP
        fun r2 => r2.from_name == "bbox" && r2.id == r.id) = 1) ∧
    (∀ r ∈ recordsABC, r.from_name = "bbox" →
      (recordsABC.countP
        fun r2 => r2.from_name == "transcription" && r2.id == r.id) = 1) ∧
    (∀ (j : Nat) (r1 : AnnotationRecord), recordsABC.get? j = some r1 →
      r1.from_name = "bbox" →
      ∃ r2, recordsABC.get? (j + 1) = some r2 ∧
        r2.from_name = "transcription" ∧ r2.id = r1.id ∧
        r2.value = r1.value) :=
  produce_record_pairing 100 200 0 [detABC] recordsABC (by
    norm_num [processImage, processDetection, normalizeBox, detABC, listGet,
      pydiv, exceptOkBind, Except.map, recordsABC]
    rw [if_neg (by decide : ¬("ABC" = ""))]
    rfl)
